import Mathlib

/-
Verification of the hyrox-results-scraper repository (src/scrape.py,
src/utils.py, src/cli.py) against its natural-language specification.

The Python code is shallowly embedded: pure helpers become Lean
functions; the stateful browser session is an abstract state type
threaded explicitly through every primitive operation; Python
exceptions become an explicit `Except Err` result. Dictionaries that
the code builds with insertion-ordered keys are modelled as
association lists in the same order.
-/

set_option autoImplicit false

/-- Error record as produced by the `_log_error` helper in scrape.py:
the exception class name, its message and a formatted traceback.
Traceback text is kept abstract (any string). -/
structure Err where
  errorType : String
  message : String
  trace : String
deriving DecidableEq, Repr

/-- Decimal digit character, used to model the Python `str()` rendering
of a nonnegative integer. -/
def digitCh (m : Nat) : Char :=
  ['0', '1', '2', '3', '4', '5', '6', '7', '8', '9'].getD m '0'

/-- Fuel-driven rendering of the decimal digits of a natural number,
least significant digit last; models the Python `str()` of an int. -/
def decReprAux : Nat → Nat → List Char
  | 0, _ => []
  | fuel + 1, n =>
    if n < 10 then [digitCh n]
    else decReprAux fuel (n / 10) ++ [digitCh (n % 10)]

/-- Model of the Python `str()` rendering of a nonnegative integer. -/
def decRepr (n : Nat) : String :=
  ⟨decReprAux (n + 1) n⟩

/-- Model of the Python `str()` rendering of an arbitrary integer. -/
def intRepr (i : Int) : String :=
  if i < 0 then "-" ++ decRepr (-i).toNat else decRepr i.toNat

/-- UTF-8 byte sequence of a character, as used by Python
`urllib.parse.quote` when percent-encoding non-safe characters. -/
def utf8Bytes (c : Char) : List Nat :=
  let n := c.toNat
  if n < 128 then [n]
  else if n < 2048 then [192 + n / 64, 128 + n % 64]
  else if n < 65536 then [224 + n / 4096, 128 + (n / 64) % 64, 128 + n % 64]
  else [240 + n / 262144, 128 + (n / 4096) % 64, 128 + (n / 64) % 64, 128 + n % 64]

/-- Uppercase hexadecimal digit, for percent-encoding. -/
def hexCh (m : Nat) : Char :=
  ['0', '1', '2', '3', '4', '5', '6', '7', '8', '9',
   'A', 'B', 'C', 'D', 'E', 'F'].getD m '0'

/-- Bytes left verbatim by Python `urllib.parse.quote` with an empty
safe set: ASCII letters, digits, and the characters `_ . - ~`. -/
def isUrlSafeByte (b : Nat) : Bool :=
  (48 ≤ b && b ≤ 57) || (65 ≤ b && b ≤ 90) || (97 ≤ b && b ≤ 122) ||
    b = 45 || b = 46 || b = 95 || b = 126

/-- Encoding of one byte under Python `urllib.parse.quote_plus`:
a space becomes `+`, safe bytes stay verbatim, all other bytes become
a percent escape with two uppercase hex digits. -/
def quoteByte (b : Nat) : List Char :=
  if b = 32 then ['+']
  else if isUrlSafeByte b then [Char.ofNat b]
  else ['%', hexCh (b / 16), hexCh (b % 16)]

/-- Concatenation of the images of a function over a list. -/
def listFlat {α β : Type} (f : α → List β) : List α → List β
  | [] => []
  | a :: rest => f a ++ listFlat f rest

/-- Model of Python `urllib.parse.quote_plus` (the encoder `urlencode`
applies to every key and value). -/
def quotePlus (s : String) : String :=
  ⟨listFlat quoteByte (listFlat utf8Bytes s.data)⟩

/-- Join a list of strings with the ampersand separator, as the
Python join call inside `urlencode` does. -/
def joinAmp : List String → String
  | [] => ""
  | [x] => x
  | x :: y :: rest => x ++ "&" ++ joinAmp (y :: rest)

/-- Model of Python `urllib.parse.urlencode` on an insertion-ordered
parameter mapping: key and value are quote-plus encoded, joined by
`=`, and the pairs are joined by `&`. -/
def urlencode (params : List (String × String)) : String :=
  joinAmp (params.map fun p => quotePlus p.1 ++ "=" ++ quotePlus p.2)

/-- Model of Python `str.rstrip` with a slash argument: drops trailing
slash characters. -/
def rstripSlash (s : String) : String :=
  ⟨(s.data.reverse.dropWhile (· = '/')).reverse⟩

/-- Characters that quote-plus encoding leaves verbatim. -/
def isSafeChar (c : Char) : Bool :=
  isUrlSafeByte c.toNat

/-- From scrape.py `construct_leaderboard_url`: validates the sex code
and assembles the leaderboard page URL via `urlencode` over the fixed
insertion-ordered parameter dict. -/
def construct_leaderboard_url (season : Int) (event : String) (sex : String)
    (page : Int) : Except Err String :=
  if sex ∈ (["M", "W", "X"] : List String) then
    let base_url := "https://results.hyrox.com"
    let path := "/season-" ++ intRepr season ++ "/index.php"
    let params := [("page", intRepr page), ("event", event), ("pid", "list"),
      ("pidp", "ranking_nav"), ("search[sex]", sex), ("search[age_class]", "%")]
    let query_string := urlencode params
    Except.ok (rstripSlash base_url ++ path ++ "?" ++ query_string)
  else
    Except.error ⟨"ValueError", "Invalid sex", "traceback"⟩

theorem isUrlSafeByte_lt (b : Nat) (h : isUrlSafeByte b = true) : b < 128 := by
  simp only [isUrlSafeByte, Bool.or_eq_true, Bool.and_eq_true, decide_eq_true_eq] at h
  omega

theorem listFlat_quote_safe (cs : List Char) (h : ∀ c ∈ cs, isSafeChar c = true) :
    listFlat quoteByte (listFlat utf8Bytes cs) = cs := by
  induction cs with
  | nil => rfl
  | cons c rest ih =>
    have hc : isSafeChar c = true := h c (by simp)
    have hlt : c.toNat < 128 := isUrlSafeByte_lt _ hc
    have hb : utf8Bytes c = [c.toNat] := by
      rw [utf8Bytes]
      simp [hlt]
    have hne : ¬ c.toNat = 32 := by
      intro heq
      rw [isSafeChar, heq] at hc
      exact absurd hc (by decide)
    have hc' : isUrlSafeByte c.toNat = true := hc
    have hq : quoteByte c.toNat = [c] := by
      rw [quoteByte, if_neg hne, if_pos hc', Char.ofNat_toNat]
    show listFlat quoteByte (utf8Bytes c ++ listFlat utf8Bytes rest) = c :: rest
    rw [hb]
    show quoteByte c.toNat ++ listFlat quoteByte (listFlat utf8Bytes rest) = c :: rest
    rw [hq, ih (fun d hd => h d (by simp [hd]))]
    rfl

theorem quotePlus_all_safe (s : String) (h : ∀ c ∈ s.data, isSafeChar c = true) :
    quotePlus s = s := by
  cases s with
  | mk cs => exact congrArg String.mk (listFlat_quote_safe cs h)

theorem digitCh_safe (m : Nat) : isSafeChar (digitCh m) = true := by
  rcases m with _|_|_|_|_|_|_|_|_|_|m
  · decide
  · decide
  · decide
  · decide
  · decide
  · decide
  · decide
  · decide
  · decide
  · decide
  · rw [digitCh, List.getD_eq_default _ _ (by simp)]
    decide

theorem decReprAux_safe (fuel : Nat) : ∀ (n : Nat), ∀ c ∈ decReprAux fuel n, isSafeChar c = true := by
  induction fuel with
  | zero => intro n c hc; simp [decReprAux] at hc
  | succ fuel ih =>
    intro n c hc
    rw [decReprAux] at hc
    by_cases hn : n < 10
    · rw [if_pos hn] at hc
      simp at hc
      rw [hc]
      exact digitCh_safe n
    · rw [if_neg hn] at hc
      rcases List.mem_append.mp hc with h1 | h2
      · exact ih (n / 10) c h1
      · simp at h2
        rw [h2]
        exact digitCh_safe (n % 10)

theorem decRepr_safe (n : Nat) : ∀ c ∈ (decRepr n).data, isSafeChar c = true :=
  decReprAux_safe (n + 1) n

theorem quotePlus_decRepr (n : Nat) : quotePlus (decRepr n) = decRepr n :=
  quotePlus_all_safe _ (decRepr_safe n)

theorem urlencode_six (k1 v1 k2 v2 k3 v3 k4 v4 k5 v5 k6 v6 : String) :
    urlencode [(k1, v1), (k2, v2), (k3, v3), (k4, v4), (k5, v5), (k6, v6)] =
      quotePlus k1 ++ "=" ++ quotePlus v1 ++ "&" ++
      (quotePlus k2 ++ "=" ++ quotePlus v2 ++ "&" ++
      (quotePlus k3 ++ "=" ++ quotePlus v3 ++ "&" ++
      (quotePlus k4 ++ "=" ++ quotePlus v4 ++ "&" ++
      (quotePlus k5 ++ "=" ++ quotePlus v5 ++ "&" ++
      (quotePlus k6 ++ "=" ++ quotePlus v6))))) := by
  simp only [urlencode, List.map, joinAmp]

/-- Claim C7 (amended): for valid season, page, sex and an event id made
of unreserved characters, the produced URL is exactly the documented
shape except that the brackets of the two search keys are percent
encoded by `urlencode`, giving `search%5Bsex%5D` and
`search%5Bage_class%5D`; two calls differing only in `page` therefore
differ only in the page parameter segment. -/
theorem claim_C7_leaderboard_url (season page : Int) (event sex : String)
    (hs : 1 ≤ season) (hp : 1 ≤ page)
    (hsex : sex = "M" ∨ sex = "W" ∨ sex = "X")
    (hev : ∀ c ∈ event.data, isSafeChar c = true) :
    construct_leaderboard_url season event sex page =
      Except.ok ("https://results.hyrox.com/season-" ++ intRepr season ++
        "/index.php?page=" ++ intRepr page ++ "&event=" ++ event ++
        "&pid=list&pidp=ranking_nav&search%5Bsex%5D=" ++ sex ++
        "&search%5Bage_class%5D=%25") := by
  have hmem : sex ∈ (["M", "W", "X"] : List String) := by
    rcases hsex with rfl | rfl | rfl <;> simp
  have hqsex : quotePlus sex = sex := by
    rcases hsex with rfl | rfl | rfl <;> rfl
  have hqev : quotePlus event = event := quotePlus_all_safe event hev
  have hir : intRepr season = decRepr season.toNat := by
    rw [intRepr, if_neg (by omega)]
  have hirp : intRepr page = decRepr page.toNat := by
    rw [intRepr, if_neg (by omega)]
  have key : rstripSlash "https://results.hyrox.com" ++
      ("/season-" ++ intRepr season ++ "/index.php") ++ "?" ++
      urlencode [("page", intRepr page), ("event", event), ("pid", "list"),
        ("pidp", "ranking_nav"), ("search[sex]", sex), ("search[age_class]", "%")] =
      "https://results.hyrox.com/season-" ++ intRepr season ++
        "/index.php?page=" ++ intRepr page ++ "&event=" ++ event ++
        "&pid=list&pidp=ranking_nav&search%5Bsex%5D=" ++ sex ++
        "&search%5Bage_class%5D=%25" := by
    rw [urlencode_six, hqsex, hqev, hir, hirp, quotePlus_decRepr]
    rw [show rstripSlash "https://results.hyrox.com" = "https://results.hyrox.com" from rfl]
    rw [show quotePlus "page" = "page" from rfl]
    rw [show quotePlus "event" = "event" from rfl]
    rw [show quotePlus "pid" = "pid" from rfl]
    rw [show quotePlus "list" = "list" from rfl]
    rw [show quotePlus "pidp" = "pidp" from rfl]
    rw [show quotePlus "ranking_nav" = "ranking_nav" from rfl]
    rw [show quotePlus "search[sex]" = "search%5Bsex%5D" from rfl]
    rw [show quotePlus "search[age_class]" = "search%5Bage_class%5D" from rfl]
    rw [show quotePlus "%" = "%25" from rfl]
    apply String.ext
    simp only [String.data_append]
    simp [List.append_assoc, List.cons_append, List.nil_append]
  unfold construct_leaderboard_url
  rw [if_pos hmem]
  exact congrArg Except.ok key

/-- Claim C7 counterexample: at season 1, event "E", sex "M", page 1 the
code produces the URL with percent-encoded bracket characters in the two
search keys, which differs from the literal-bracket shape the claim
requires character for character. -/
theorem claim_C7_counterexample :
    construct_leaderboard_url 1 "E" "M" 1 =
      Except.ok "https://results.hyrox.com/season-1/index.php?page=1&event=E&pid=list&pidp=ranking_nav&search%5Bsex%5D=M&search%5Bage_class%5D=%25" ∧
    ("https://results.hyrox.com/season-1/index.php?page=1&event=E&pid=list&pidp=ranking_nav&search%5Bsex%5D=M&search%5Bage_class%5D=%25" : String) ≠
      "https://results.hyrox.com/season-1/index.php?page=1&event=E&pid=list&pidp=ranking_nav&search[sex]=M&search[age_class]=%25" :=
  ⟨rfl, by decide⟩

/-- Claim C7 witness: the amended theorem applied at concrete inputs. -/
theorem claim_C7_witness :
    construct_leaderboard_url 3 "JGDMS4JI1FA" "W" 2 =
      Except.ok ("https://results.hyrox.com/season-" ++ intRepr 3 ++
        "/index.php?page=" ++ intRepr 2 ++ "&event=" ++ "JGDMS4JI1FA" ++
        "&pid=list&pidp=ranking_nav&search%5Bsex%5D=" ++ "W" ++
        "&search%5Bage_class%5D=%25") :=
  claim_C7_leaderboard_url 3 2 "JGDMS4JI1FA" "W" (by decide) (by decide)
    (Or.inr (Or.inl rfl)) (by decide)

/-- Outcome of one invocation of an operation wrapped by
`retry_on_stale`: normal return, a StaleElementReferenceException, or
any other exception. -/
inductive Outcome (α : Type) where
  | ok (a : α)
  | stale (e : Err)
  | other (e : Err)
deriving DecidableEq, Repr

/-- Loop body of the wrapper returned by `retry_on_stale` in utils.py:
`attempt` counts from 1; `remaining` counts the attempts left in the
range. The fuel-zero case corresponds to the final re-raise line the
source marks as unreachable. -/
def retryFrom {α : Type} (op : Nat → Outcome α) (tries : Nat) :
    Nat → Nat → Except Err α
  | _, 0 => Except.error ⟨"Unreachable", "should be unreachable", "traceback"⟩
  | attempt, remaining + 1 =>
    match op attempt with
    | .ok a => .ok a
    | .stale e =>
      if attempt = tries then .error e
      else retryFrom op tries (attempt + 1) remaining
    | .other e => .error e

/-- From utils.py `retry_on_stale`: run `op` for at most `tries`
attempts, retrying only on the stale outcome; the i-th invocation of
the wrapped operation is `op i`. -/
def retry_on_stale {α : Type} (tries : Nat) (op : Nat → Outcome α) : Except Err α :=
  retryFrom op tries 1 tries

/-- Claim C2: with max_attempts = 3, the wrapper returns the result
when the operation goes stale twice then succeeds; propagates the last
stale error when all three attempts go stale; and propagates any other
error at the invocation that raised it, never invoking the operation
again (the result does not depend on `op` beyond attempt k). -/
theorem claim_C2_retry (α : Type) :
    (∀ (op : Nat → Outcome α) (v : α) (e1 e2 : Err),
      op 1 = .stale e1 → op 2 = .stale e2 → op 3 = .ok v →
      retry_on_stale 3 op = .ok v) ∧
    (∀ (op : Nat → Outcome α) (e1 e2 e3 : Err),
      op 1 = .stale e1 → op 2 = .stale e2 → op 3 = .stale e3 →
      retry_on_stale 3 op = .error e3) ∧
    (∀ (op : Nat → Outcome α) (k : Nat) (e : Err),
      1 ≤ k → k ≤ 3 → (∀ i, 1 ≤ i → i < k → ∃ e', op i = .stale e') →
      op k = .other e → retry_on_stale 3 op = .error e) := by
  refine ⟨?_, ?_, ?_⟩
  · intro op v e1 e2 h1 h2 h3
    simp [retry_on_stale, retryFrom, h1, h2, h3]
  · intro op e1 e2 e3 h1 h2 h3
    simp [retry_on_stale, retryFrom, h1, h2, h3]
  · intro op k e hk1 hk3 hstale hk
    interval_cases k
    · simp [retry_on_stale, retryFrom, hk]
    · obtain ⟨e1, h1⟩ := hstale 1 (by omega) (by omega)
      simp [retry_on_stale, retryFrom, h1, hk]
    · obtain ⟨e1, h1⟩ := hstale 1 (by omega) (by omega)
      obtain ⟨e2, h2⟩ := hstale 2 (by omega) (by omega)
      simp [retry_on_stale, retryFrom, h1, h2, hk]

/-- Stale-element error value used by concrete examples. -/
def staleE : Err :=
  ⟨"StaleElementReferenceException", "stale element reference", "traceback"⟩

/-- Concrete operation that goes stale twice and then returns 42. -/
def exRetryOp : Nat → Outcome Nat := fun i =>
  if i = 1 then Outcome.stale staleE
  else if i = 2 then Outcome.stale staleE
  else Outcome.ok 42

/-- Claim C2 witness: the retry contract applied to a concrete
operation that goes stale twice then succeeds. -/
theorem claim_C2_witness : retry_on_stale 3 exRetryOp = Except.ok 42 :=
  (claim_C2_retry Nat).1 exRetryOp 42 staleE staleE rfl rfl rfl

/-- Lookup in a Python dict built from an association list by
insertion: the last binding of a key wins. -/
def dictGet (params : List (String × String)) (k : String) : Option String :=
  ((params.filter (fun p => p.1 == k)).getLast?).map (·.2)

/-- Numeric value of a list of decimal digit characters. -/
def natOfDigits (cs : List Char) : Nat :=
  cs.foldl (fun a c => a * 10 + (c.toNat - 48)) 0

/-- Model of the Python `int()` conversion on the strings found in
query parameters: defined on plain digit strings, undefined otherwise
(undefinedness models the ValueError `int()` raises). -/
def parseNatStr (s : String) : Option Nat :=
  if s.data.isEmpty then none
  else if s.data.all (·.isDigit) then some (natOfDigits s.data) else none

/-- State of the rendered results page as far as `parse_pagination`
reads it: whether the alert box for "no results" is present, and the
pagination control, `none` when the control is absent, otherwise the
parsed query parameters of each anchor link inside it. -/
structure PaginationPage where
  hasAlert : Bool
  paginationLinks : Option (List (List (String × String)))
deriving DecidableEq, Repr

/-- Effective page number of one pagination link: `int(q.get('page', 1))`. -/
def pageValue (link : List (String × String)) : Option Nat :=
  match dictGet link "page" with
  | none => some 1
  | some v => parseNatStr v

/-- Loop of `parse_pagination` over the pagination links, taking the
running maximum starting from the accumulator. -/
def parse_pagination_links : List (List (String × String)) → Nat → Except Err Nat
  | [], n => .ok n
  | link :: rest, n =>
    match pageValue link with
    | some m => parse_pagination_links rest (max n m)
    | none => .error ⟨"ValueError", "invalid literal for int", "traceback"⟩

/-- From scrape.py `parse_pagination`: 0 when the alert box is present,
1 when no pagination control is rendered, otherwise the maximum page
number over the links of the control starting from 1. -/
def parse_pagination (p : PaginationPage) : Except Err Nat :=
  if p.hasAlert then .ok 0
  else
    match p.paginationLinks with
    | none => .ok 1
    | some links => parse_pagination_links links 1

theorem parse_pagination_links_ok (P : List (String × String) → Nat → Prop)
    (links : List (List (String × String))) (ms : List Nat)
    (h : List.Forall₂ (fun l m => pageValue l = some m ∧ P l m) links ms) :
    ∀ acc, parse_pagination_links links acc = .ok (ms.foldl max acc) := by
  induction h with
  | nil => intro acc; rfl
  | @cons link m links2 ms2 hd htl ih =>
    intro acc
    rw [parse_pagination_links, hd.1]
    show parse_pagination_links links2 (max acc m) = _
    rw [ih]
    rfl

theorem foldl_max_mem (ms : List Nat) : ∀ a : Nat,
    ms.foldl max a = a ∨ ms.foldl max a ∈ ms := by
  induction ms with
  | nil => intro a; left; rfl
  | cons m rest ih =>
    intro a
    rcases ih (max a m) with h | h
    · rcases max_choice a m with hm | hm
      · left; rw [List.foldl_cons, h, hm]
      · right; rw [List.foldl_cons, h, hm]; simp
    · right; rw [List.foldl_cons]; exact List.mem_cons_of_mem m h

theorem foldl_max_le (ms : List Nat) : ∀ a : Nat,
    a ≤ ms.foldl max a ∧ ∀ m ∈ ms, m ≤ ms.foldl max a := by
  induction ms with
  | nil => intro a; exact ⟨le_refl a, by simp⟩
  | cons m rest ih =>
    intro a
    have h1 := (ih (max a m)).1
    have h2 := (ih (max a m)).2
    constructor
    · exact le_trans (le_max_left a m) h1
    · intro x hx
      rcases List.mem_cons.mp hx with rfl | hx
      · exact le_trans (le_max_right a x) h1
      · exact h2 x hx

/-- Claim C3: `parse_pagination` returns 0 whenever the no-results
alert is present (regardless of any pagination control), otherwise 1
when no pagination control is rendered, otherwise the maximum of the
page numbers carried by the links of the control. -/
theorem claim_C3_parse_pagination :
    (∀ p : PaginationPage, p.hasAlert = true → parse_pagination p = .ok 0) ∧
    (∀ p : PaginationPage, p.hasAlert = false → p.paginationLinks = none →
      parse_pagination p = .ok 1) ∧
    (∀ (p : PaginationPage) (links : List (List (String × String))) (ms : List Nat),
      p.hasAlert = false → p.paginationLinks = some links →
      List.Forall₂ (fun l m => pageValue l = some m ∧ 1 ≤ m) links ms →
      links ≠ [] →
      ∃ M, parse_pagination p = .ok M ∧ M ∈ ms ∧ ∀ m ∈ ms, m ≤ M) := by
  refine ⟨?_, ?_, ?_⟩
  · intro p h
    rw [parse_pagination, if_pos h]
  · intro p h hn
    rw [parse_pagination, if_neg (by rw [h]; exact Bool.false_ne_true), hn]
  · intro p links ms h hl hf hne
    refine ⟨ms.foldl max 1, ?_, ?_, (foldl_max_le ms 1).2⟩
    · rw [parse_pagination, if_neg (by rw [h]; exact Bool.false_ne_true), hl]
      exact parse_pagination_links_ok _ links ms hf 1
    · rcases foldl_max_mem ms 1 with hm | hm
      · have hms : ms ≠ [] := by
          intro hcon
          rw [hcon] at hf
          cases hf
          exact hne rfl
        rcases ms with _ | ⟨m0, rest⟩
        · exact absurd rfl hms
        · have hm0 : m0 ≤ (m0 :: rest).foldl max 1 := (foldl_max_le _ 1).2 m0 (by simp)
          have h1 : 1 ≤ m0 := by
            rcases hf with _ | ⟨⟨_, hp⟩, _⟩
            exact hp
          have : m0 = 1 := le_antisymm (hm ▸ hm0) h1
          rw [hm, ← this]
          simp
      · exact hm

/-- Concrete page with the no-results alert and a pagination control. -/
def pageWithAlert : PaginationPage := ⟨true, some [[("page", "9")]]⟩

/-- Concrete page with neither alert nor pagination control. -/
def pageNoControl : PaginationPage := ⟨false, none⟩

/-- Concrete page whose pagination links carry pages 1, 2 and 5. -/
def pageOneTwoFive : PaginationPage :=
  ⟨false, some [[("page", "1")], [("page", "2")], [("page", "5")]]⟩

/-- Claim C3 witness: the three branches applied at concrete pages,
including the page set 1, 2, 5. -/
theorem claim_C3_witness :
    parse_pagination pageWithAlert = .ok 0 ∧
    parse_pagination pageNoControl = .ok 1 ∧
    ∃ M, parse_pagination pageOneTwoFive = .ok M ∧ M ∈ [1, 2, 5] ∧
      ∀ m ∈ [1, 2, 5], m ≤ M := by
  refine ⟨claim_C3_parse_pagination.1 pageWithAlert rfl,
    claim_C3_parse_pagination.2.1 pageNoControl rfl rfl,
    claim_C3_parse_pagination.2.2 pageOneTwoFive _ [1, 2, 5] rfl rfl ?_ (by decide)⟩
  refine List.Forall₂.cons ⟨rfl, by omega⟩ ?_
  refine List.Forall₂.cons ⟨rfl, by omega⟩ ?_
  exact List.Forall₂.cons ⟨rfl, by omega⟩ List.Forall₂.nil

/-- One labeled option group of the division dropdown: the label
attribute and the visible text of each child option. -/
structure Optgroup where
  label : String
  options : List String
deriving DecidableEq, Repr

/-- Loop of `get_division_options` in scrape.py: `i` accumulates the
number of options seen in the groups already passed; on the first
group whose label matches, the group options are returned keyed by
their absolute ordinal position `i + j`. -/
def get_division_options_aux (emg : String) : Nat → List Optgroup → List (Nat × String)
  | _, [] => []
  | i, g :: rest =>
    if g.label = emg then g.options.enum.map (fun p => (i + p.1, p.2))
    else get_division_options_aux emg (i + g.options.length) rest

/-- From scrape.py `get_division_options`: selects the first option
group whose label equals the requested event group and keys its
options by absolute ordinal position across the whole dropdown; the
empty mapping when no group matches. -/
def get_division_options (groups : List Optgroup) (emg : String) : List (Nat × String) :=
  get_division_options_aux emg 0 groups

/-- Sum of the option counts of a list of option groups. -/
def optionCount (groups : List Optgroup) : Nat :=
  (groups.map (fun g => g.options.length)).sum

theorem get_division_options_aux_split (emg : String) (pre : List Optgroup)
    (g : Optgroup) (post : List Optgroup)
    (hpre : ∀ p ∈ pre, p.label ≠ emg) (hg : g.label = emg) :
    ∀ i, get_division_options_aux emg i (pre ++ g :: post) =
      g.options.enum.map (fun p => (i + optionCount pre + p.1, p.2)) := by
  induction pre with
  | nil =>
    intro i
    rw [List.nil_append, get_division_options_aux, if_pos hg]
    simp [optionCount]
  | cons q rest ih =>
    intro i
    rw [List.cons_append, get_division_options_aux,
      if_neg (hpre q (by simp)), ih (fun p hp => hpre p (by simp [hp]))]
    have : i + q.options.length + optionCount rest = i + optionCount (q :: rest) := by
      simp [optionCount]
      omega
    rw [this]

/-- Claim C8: when some option group carries the requested label,
`get_division_options` returns exactly the options of the first such
group, each keyed by the count of all options in the preceding groups
plus its position inside its own group. -/
theorem claim_C8_division_options (pre : List Optgroup) (g : Optgroup)
    (post : List Optgroup) (emg : String)
    (hpre : ∀ p ∈ pre, p.label ≠ emg) (hg : g.label = emg) :
    get_division_options (pre ++ g :: post) emg =
      g.options.enum.map (fun p => (optionCount pre + p.1, p.2)) := by
  rw [get_division_options, get_division_options_aux_split emg pre g post hpre hg 0]
  simp

/-- Claim C8 witness: a dropdown whose first group holds three options
and whose second group matches; the returned keys are the absolute
ordinals 3 and 4, not the per-group positions 0 and 1. -/
theorem claim_C8_witness :
    get_division_options [⟨"Hamburg", ["HA", "HB", "HC"]⟩, ⟨"Munich", ["MA", "MB"]⟩]
      "Munich" = [(3, "MA"), (4, "MB")] := by
  have h := claim_C8_division_options [⟨"Hamburg", ["HA", "HB", "HC"]⟩]
    ⟨"Munich", ["MA", "MB"]⟩ [] "Munich" (by decide) rfl
  rw [List.cons_append, List.nil_append] at h
  rw [h]
  rfl

/-- Gender leaf of the season catalog: either the dict
`(gender_index, gender, n_pages)` or the flat error record
`(gender_index, error_type, error, traceback)`. -/
inductive GenderEntry where
  | ok (gender_index : Nat) (gender : String) (n_pages : Nat)
  | err (gender_index : Nat) (e : Err)
deriving DecidableEq, Repr

/-- Division node of the season catalog: either the full dict or the
flat error record keyed by `division_index`. -/
inductive DivisionEntry where
  | ok (division_index : Nat) (division_name : String) (event_id : Option String)
      (event_display_name : String) (division_display_name : String)
      (genders : List GenderEntry)
  | err (division_index : Nat) (e : Err)
deriving DecidableEq, Repr

/-- Event node of the season catalog: either the full dict or the
error leaf `(event_index, error)`. -/
inductive EventEntry where
  | ok (event_index : Nat) (event_id : Option String) (event_main_group : String)
      (divisions : List DivisionEntry)
  | err (event_index : Nat) (e : Err)
deriving DecidableEq, Repr

/-- Season catalog produced by `scrape_hyrox_season`. -/
structure SeasonDict where
  season : Int
  name : String
  events : List EventEntry
deriving DecidableEq, Repr

/-- Abstract browser session for the Season Crawler: each primitive is
one (retry-wrapped) step of scrape.py acting on an opaque driver state
and returning its overall outcome together with the successor state. -/
structure Session (σ : Type) where
  navigateToResults : Int → Option String → σ → Except Err Unit × σ
  parseSeason : σ → Except Err (Nat × String) × σ
  mainGroupOptions : σ → Except Err (List String) × σ
  divisionGroups : σ → Except Err (List Optgroup) × σ
  parseEventId : σ → Except Err (Option String) × σ
  selectDropdowns : Nat → Option Nat → σ → Except Err Unit × σ
  parseResultsDisplay : σ → Except Err (String × String) × σ
  genderOptions : σ → Except Err (List (Nat × String)) × σ
  parsePagination : σ → Except Err Nat × σ

/-- The UnboundLocalError Python raises when the division-level
exception handler reads the loop variable `k` before any gender loop
iteration has bound it. -/
def unboundKErr : Err :=
  ⟨"UnboundLocalError",
   "cannot access local variable k where it is not associated with a value",
   "traceback"⟩

/-- Gender loop of `scrape_hyrox_season` (scrape.py lines 355 to 365):
each iteration selects the division and gender, computes `n_pages`,
and on failure appends the flat gender error record. The third
component tracks the current binding of the Python loop variable `k`,
which survives the loop. -/
def genderLoop {σ : Type} (S : Session σ) (j : Nat) :
    List (Nat × String) → σ → Option Nat → List GenderEntry × σ × Option Nat
  | [], s, k0 => ([], s, k0)
  | (k, gdr) :: rest, s, _ =>
    match S.selectDropdowns j (some k) s with
    | (.ok _, s1) =>
      match S.parsePagination s1 with
      | (.ok n, s2) =>
        let r := genderLoop S j rest s2 (some k)
        (GenderEntry.ok k gdr n :: r.1, r.2)
      | (.error e, s2) =>
        let r := genderLoop S j rest s2 (some k)
        (GenderEntry.err k e :: r.1, r.2)
    | (.error e, s1) =>
      let r := genderLoop S j rest s1 (some k)
      (GenderEntry.err k e :: r.1, r.2)

/-- Body of one division iteration (scrape.py lines 343 to 365):
select the division, parse the display names, re-parse the event id,
enumerate genders and run the gender loop. An error result is the
exception reaching the division-level handler. -/
def divisionBody {σ : Type} (S : Session σ) (j : Nat) (dv : String) (s : σ)
    (k0 : Option Nat) : Except Err DivisionEntry × σ × Option Nat :=
  match S.selectDropdowns j none s with
  | (.error e, s1) => (.error e, s1, k0)
  | (.ok _, s1) =>
    match S.parseResultsDisplay s1 with
    | (.error e, s2) => (.error e, s2, k0)
    | (.ok (edn, ddn), s2) =>
      match S.parseEventId s2 with
      | (.error e, s3) => (.error e, s3, k0)
      | (.ok eid, s3) =>
        match S.genderOptions s3 with
        | (.error e, s4) => (.error e, s4, k0)
        | (.ok gopts, s4) =>
          let r := genderLoop S j gopts s4 k0
          (.ok (DivisionEntry.ok j dv eid edn ddn r.1), r.2)

/-- Division loop of `scrape_hyrox_season` (lines 342 to 368). The
exception handler on line 367 stores the gender loop variable `k` in
the `division_index` slot; when `k` is still unbound the handler
itself raises UnboundLocalError, which escapes to the event level
(the error result of this function). -/
def divisionLoop {σ : Type} (S : Session σ) :
    List (Nat × String) → σ → Option Nat →
    Except (Err × σ × Option Nat) (List DivisionEntry × σ × Option Nat)
  | [], s, k0 => .ok ([], s, k0)
  | (j, dv) :: rest, s, k0 =>
    match divisionBody S j dv s k0 with
    | (.ok d, s1, k1) =>
      match divisionLoop S rest s1 k1 with
      | .ok (ds, s2, k2) => .ok (d :: ds, s2, k2)
      | .error e2 => .error e2
    | (.error e, s1, k1) =>
      match k1 with
      | some kv =>
        match divisionLoop S rest s1 k1 with
        | .ok (ds, s2, k2) => .ok (DivisionEntry.err kv e :: ds, s2, k2)
        | .error e2 => .error e2
      | none => .error (unboundKErr, s1, none)

/-- Body of one event-group iteration (lines 334 to 368): navigate
scoped to the group, read the division dropdown, compute the matching
division options, parse the event id, then run the division loop. -/
def eventBody {σ : Type} (S : Session σ) (season : Int) (i : Nat) (emg : String)
    (s : σ) (k0 : Option Nat) : Except Err EventEntry × σ × Option Nat :=
  match S.navigateToResults season (some emg) s with
  | (.error e, s1) => (.error e, s1, k0)
  | (.ok _, s1) =>
    match S.divisionGroups s1 with
    | (.error e, s2) => (.error e, s2, k0)
    | (.ok groups, s2) =>
      match S.parseEventId s2 with
      | (.error e, s3) => (.error e, s3, k0)
      | (.ok eid, s3) =>
        match divisionLoop S (get_division_options groups emg) s3 k0 with
        | .ok (ds, s4, k1) => (.ok (EventEntry.ok i eid emg ds), s4, k1)
        | .error (e, s4, k1) => (.error e, s4, k1)

/-- Event loop of `scrape_hyrox_season` (lines 327 to 371): a failed
event body is recorded as the error leaf `(event_index, error)` and
the loop continues with the next group. -/
def eventLoop {σ : Type} (S : Session σ) (season : Int) :
    List (Nat × String) → σ → Option Nat → List EventEntry × σ
  | [], s, _ => ([], s)
  | (i, emg) :: rest, s, k0 =>
    match eventBody S season i emg s k0 with
    | (.ok ev, s1, k1) =>
      let r := eventLoop S season rest s1 k1
      (ev :: r.1, r.2)
    | (.error e, s1, k1) =>
      let r := eventLoop S season rest s1 k1
      (EventEntry.err i e :: r.1, r.2)

/-- From scrape.py `scrape_hyrox_season`: season guard, top-level
navigation, season identity check, event-group enumeration, then the
event loop over the enumerated groups. -/
def scrape_hyrox_season {σ : Type} (S : Session σ) (season : Int) (s0 : σ) :
    Except Err SeasonDict :=
  if season < 1 then
    .error ⟨"ValueError", "season must be an integer greater than 0", "traceback"⟩
  else
    match S.navigateToResults season none s0 with
    | (.error e, _) => .error e
    | (.ok _, s1) =>
      match S.parseSeason s1 with
      | (.error e, _) => .error e
      | (.ok (number, name), s2) =>
        if (number : Int) ≠ season then
          .error ⟨"ValueError", "Season mismatch", "traceback"⟩
        else
          match S.mainGroupOptions s2 with
          | (.error e, _) => .error e
          | (.ok opts, s3) =>
            .ok ⟨season, name, (eventLoop S season opts.enum s3 none).1⟩

/-- Claim C5: when the scoped navigation for the middle of three event
groups fails while the other two event bodies succeed, the catalog
contains the two complete event entries in place and the failed group
as the error leaf `(event_index, error)` between them. -/
theorem claim_C5_event_isolation {σ : Type} (S : Session σ) (season : Int)
    (s0 s1 s2 s3 s4 s5 s6 : σ) (number : Nat) (name : String)
    (g1 g2 g3 : String) (ev1 ev3 : EventEntry) (k1 k2 : Option Nat) (e : Err)
    (hpos : 1 ≤ season)
    (hnav : S.navigateToResults season none s0 = (.ok (), s1))
    (hps : S.parseSeason s1 = (.ok (number, name), s2))
    (hnum : (number : Int) = season)
    (hmg : S.mainGroupOptions s2 = (.ok [g1, g2, g3], s3))
    (h1 : eventBody S season 0 g1 s3 none = (.ok ev1, s4, k1))
    (h2 : S.navigateToResults season (some g2) s4 = (.error e, s5))
    (h3 : eventBody S season 2 g3 s5 k1 = (.ok ev3, s6, k2)) :
    scrape_hyrox_season S season s0 =
      .ok ⟨season, name, [ev1, EventEntry.err 1 e, ev3]⟩ := by
  have h2' : eventBody S season 1 g2 s4 k1 = (.error e, s5, k1) := by
    unfold eventBody
    rw [h2]
  unfold scrape_hyrox_season
  rw [if_neg (by omega)]
  simp only [hnav]
  simp only [hps]
  rw [if_neg (by simp [hnum])]
  simp only [hmg]
  show Except.ok (⟨season, name,
    (eventLoop S season [(0, g1), (1, g2), (2, g3)] s3 none).1⟩ : SeasonDict) = _
  simp only [eventLoop, h1, h2', h3]

/-- Concrete session for the C5 witness: three event groups, the
middle one failing at navigation. -/
def c5Session : Session Nat where
  navigateToResults := fun _ g s =>
    (if g = some "Berlin" then .error staleE else .ok (), s)
  parseSeason := fun s => (.ok (6, "Season 6"), s)
  mainGroupOptions := fun s => (.ok ["Anvers", "Berlin", "Cardiff"], s)
  divisionGroups := fun s =>
    (.ok [⟨"Anvers", ["Open"]⟩, ⟨"Cardiff", ["Pro"]⟩], s)
  parseEventId := fun s => (.ok (some "HX5"), s)
  selectDropdowns := fun _ _ s => (.ok (), s)
  parseResultsDisplay := fun s => (.ok ("Ev", "Dv"), s)
  genderOptions := fun s => (.ok [(0, "Male")], s)
  parsePagination := fun s => (.ok 3, s)

/-- Claim C5 witness: the isolation theorem applied to the concrete
session, with every hypothesis discharged by evaluation. -/
theorem claim_C5_witness :
    scrape_hyrox_season c5Session 6 0 =
      .ok ⟨6, "Season 6",
        [EventEntry.ok 0 (some "HX5") "Anvers"
          [DivisionEntry.ok 0 "Open" (some "HX5") "Ev" "Dv" [GenderEntry.ok 0 "Male" 3]],
         EventEntry.err 1 staleE,
         EventEntry.ok 2 (some "HX5") "Cardiff"
          [DivisionEntry.ok 1 "Pro" (some "HX5") "Ev" "Dv" [GenderEntry.ok 0 "Male" 3]]]⟩ :=
  claim_C5_event_isolation c5Session 6 0 0 0 0 0 0 0 6 "Season 6"
    "Anvers" "Berlin" "Cardiff" _ _ (some 0) (some 0) staleE
    (by omega) rfl rfl rfl rfl rfl rfl rfl

theorem get_division_options_aux_none (emg : String) (groups : List Optgroup)
    (h : ∀ g ∈ groups, g.label ≠ emg) :
    ∀ i, get_division_options_aux emg i groups = [] := by
  induction groups with
  | nil => intro i; rfl
  | cons g rest ih =>
    intro i
    rw [get_division_options_aux, if_neg (h g (by simp))]
    exact ih (fun p hp => h p (by simp [hp])) _

/-- Claim C10: when no option group label matches the requested event
group, `get_division_options` returns the empty mapping, and the event
loop records that event group as a normal entry with an empty
divisions list rather than an error leaf. -/
theorem claim_C10_no_matching_group {σ : Type} (S : Session σ) (season : Int)
    (i : Nat) (emg : String) (rest : List (Nat × String)) (s s1 s2 s3 : σ)
    (groups : List Optgroup) (eid : Option String) (k0 : Option Nat)
    (hnav : S.navigateToResults season (some emg) s = (.ok (), s1))
    (hgroups : S.divisionGroups s1 = (.ok groups, s2))
    (hnolabel : ∀ g ∈ groups, g.label ≠ emg)
    (heid : S.parseEventId s2 = (.ok eid, s3)) :
    get_division_options groups emg = [] ∧
    eventLoop S season ((i, emg) :: rest) s k0 =
      (EventEntry.ok i eid emg [] :: (eventLoop S season rest s3 k0).1,
        (eventLoop S season rest s3 k0).2) := by
  have hempty : get_division_options groups emg = [] :=
    get_division_options_aux_none emg groups hnolabel 0
  have hbody : eventBody S season i emg s k0 =
      (.ok (EventEntry.ok i eid emg []), s3, k0) := by
    unfold eventBody
    simp only [hnav]
    simp only [hgroups]
    simp only [heid]
    simp only [hempty, divisionLoop]
  refine ⟨hempty, ?_⟩
  simp only [eventLoop, hbody]

/-- Concrete session for the C10 witness: the division dropdown only
holds a group labeled Bergen while the requested event group is Oslo. -/
def c10Session : Session Nat where
  navigateToResults := fun _ _ s => (.ok (), s)
  parseSeason := fun s => (.ok (4, "Season 4"), s)
  mainGroupOptions := fun s => (.ok ["Oslo"], s)
  divisionGroups := fun s => (.ok [⟨"Bergen", ["D1"]⟩], s)
  parseEventId := fun s => (.ok (some "HX1"), s)
  selectDropdowns := fun _ _ s => (.ok (), s)
  parseResultsDisplay := fun s => (.ok ("E", "D"), s)
  genderOptions := fun s => (.ok [], s)
  parsePagination := fun s => (.ok 1, s)

/-- Claim C10 witness: the no-matching-label theorem applied to the
concrete session. -/
theorem claim_C10_witness :
    get_division_options [⟨"Bergen", ["D1"]⟩] "Oslo" = [] ∧
    eventLoop c10Session 4 [(0, "Oslo")] 0 none =
      (EventEntry.ok 0 (some "HX1") "Oslo" [] :: (eventLoop c10Session 4 [] 0 none).1,
        (eventLoop c10Session 4 [] 0 none).2) :=
  claim_C10_no_matching_group c10Session 4 0 "Oslo" [] 0 0 0 0
    [⟨"Bergen", ["D1"]⟩] (some "HX1") none rfl rfl (by decide) rfl

/-- Element-lookup error used in the C1 evidence sessions. -/
def selErr : Err := ⟨"NoSuchElementException", "no such element", "traceback"⟩

/-- Session A for C1: the event group Wien owns the division options
at absolute ordinals 3 and 4; selecting ordinal 4 fails; each division
before it enumerates genders 0 and 1. -/
def c1SessionA : Session Nat where
  navigateToResults := fun _ _ s => (.ok (), s)
  parseSeason := fun s => (.ok (2, "Season 2"), s)
  mainGroupOptions := fun s => (.ok ["Wien"], s)
  divisionGroups := fun s =>
    (.ok [⟨"Graz", ["X1", "X2", "X3"]⟩, ⟨"Wien", ["D1", "D2"]⟩], s)
  parseEventId := fun s => (.ok (some "HX2"), s)
  selectDropdowns := fun j _ s =>
    (if j = 4 then .error selErr else .ok (), s)
  parseResultsDisplay := fun s => (.ok ("EventName", "DivName"), s)
  genderOptions := fun s => (.ok [(0, "Male"), (1, "Female")], s)
  parsePagination := fun s => (.ok 7, s)

/-- Session B for C1: as session A but no division exposes a gender
dropdown, so the loop variable `k` is never bound. -/
def c1SessionB : Session Nat where
  navigateToResults := fun _ _ s => (.ok (), s)
  parseSeason := fun s => (.ok (2, "Season 2"), s)
  mainGroupOptions := fun s => (.ok ["Wien"], s)
  divisionGroups := fun s =>
    (.ok [⟨"Graz", ["X1", "X2", "X3"]⟩, ⟨"Wien", ["D1", "D2"]⟩], s)
  parseEventId := fun s => (.ok (some "HX2"), s)
  selectDropdowns := fun j _ s =>
    (if j = 4 then .error selErr else .ok (), s)
  parseResultsDisplay := fun s => (.ok ("EventName", "DivName"), s)
  genderOptions := fun s => (.ok [], s)
  parsePagination := fun s => (.ok 7, s)

/-- Claim C1 evidence: in session A the division at ordinal 4 fails
and the recorded error leaf carries division_index 1 — the last bound
value of the gender loop variable `k` — instead of the failed
division's own index 4, although the preceding division entry stays
intact; in session B, where no gender was ever enumerated, the same
division failure raises UnboundLocalError inside the handler and the
whole event group collapses into an error leaf, losing the division
entry already appended for ordinal 3. -/
theorem claim_C1_division_error_leaf :
    (eventLoop c1SessionA 2 [(0, "Wien")] 0 none).1 =
      [EventEntry.ok 0 (some "HX2") "Wien"
        [DivisionEntry.ok 3 "D1" (some "HX2") "EventName" "DivName"
          [GenderEntry.ok 0 "Male" 7, GenderEntry.ok 1 "Female" 7],
         DivisionEntry.err 1 selErr]] ∧
    (1 : Nat) ≠ 4 ∧
    (eventLoop c1SessionB 2 [(0, "Wien")] 0 none).1 =
      [EventEntry.err 0 unboundKErr] :=
  ⟨rfl, by decide, rfl⟩

/-- Scan for the first occurrence of the pattern season dash digits in
a link, as `re.search` with the season pattern does in `parse_season`:
returns the digits following the first occurrence of the literal
`/season-` that is followed by at least one digit. -/
def searchSeasonNum : List Char → Option Nat
  | [] => none
  | c :: rest =>
    if ("/season-".data).isPrefixOf (c :: rest) then
      let ds := ((c :: rest).drop 8).takeWhile (·.isDigit)
      if ds.isEmpty then searchSeasonNum rest else some (natOfDigits ds)
    else searchSeasonNum rest

/-- Abstract page session for the Navigator: loading a URL, waiting
for a marker element, reading the current URL, and reading the season
switcher control text and link. -/
structure NavSession (σ : Type) where
  get : String → σ → σ
  waitVisible : String → σ → Except Err Unit
  currentUrl : σ → String
  switcherText : σ → Except Err String
  switcherLink : σ → Except Err String

/-- Model of the Python `str.startswith` test: the pattern is a
character-wise prefix of the string. -/
def pyStartsWith (s pat : String) : Bool :=
  pat.data.isPrefixOf s.data

/-- CSS marker waited for when an event group is in the query. -/
def division_selector : String := "#event"

/-- CSS marker waited for on the season landing page. -/
def event_main_group_selector : String := "#default-lists-event_main_group"

/-- From scrape.py `parse_season`: reads the season switcher, takes
its text as the display name and the season number from the embedded
link; failing the regex search raises on the `.group` access. -/
def parse_season {σ : Type} (N : NavSession σ) (s : σ) : Except Err (Nat × String) :=
  match N.switcherText s with
  | .error e => .error e
  | .ok name =>
    match N.switcherLink s with
    | .error e => .error e
    | .ok link =>
      match searchSeasonNum link.data with
      | some n => .ok (n, name)
      | none => .error ⟨"AttributeError", "NoneType has no attribute group", "traceback"⟩

/-- From scrape.py `navigate_to_results`: season guard, URL assembly
(scoped to the event group when given), page load, wait for the
marker, then the two checks the code performs: the current URL starts
with the season path, and the parsed season number equals the
requested one. -/
def navigate_to_results {σ : Type} (N : NavSession σ) (season : Int)
    (emg : Option String) (s : σ) : Except Err σ :=
  if season < 1 then
    .error ⟨"ValueError", "season must be an integer greater than 0", "traceback"⟩
  else
    let base_url := "https://results.hyrox.com"
    let path_url := base_url ++ "/season-" ++ intRepr season
    let url := match emg with
      | some g => path_url ++ "/index.php?" ++
          urlencode [("event_main_group", g), ("pid", "list"), ("pidp", "ranking_nav")]
      | none => path_url
    let sel := match emg with
      | some _ => division_selector
      | none => event_main_group_selector
    let s1 := N.get url s
    match N.waitVisible sel s1 with
    | .error e => .error e
    | .ok _ =>
      if pyStartsWith (N.currentUrl s1) path_url = false then
        .error ⟨"ValueError", "Invalid season url", "traceback"⟩
      else
        match parse_season N s1 with
        | .error e => .error e
        | .ok (number, _) =>
          if (number : Int) ≠ season then
            .error ⟨"ValueError", "Season mismatch", "traceback"⟩
          else .ok s1

/-- Claim C4 (amended): given that the marker wait and the season
parse succeed, `navigate_to_results` succeeds exactly when the current
URL starts with the requested season path and the parsed season
number equals the requested season; the event-group query parameter
echoed in the URL is never validated, and the URL check is a prefix
check rather than an exact path match. -/
theorem claim_C4_navigation_checks {σ : Type} (N : NavSession σ) (season : Int)
    (emg : String) (s s1 : σ) (n : Nat) (name : String)
    (hpos : 1 ≤ season)
    (hs1 : N.get ("https://results.hyrox.com" ++ "/season-" ++ intRepr season ++
      "/index.php?" ++ urlencode [("event_main_group", emg), ("pid", "list"),
        ("pidp", "ranking_nav")]) s = s1)
    (hw : N.waitVisible division_selector s1 = .ok ())
    (hp : parse_season N s1 = .ok (n, name)) :
    navigate_to_results N season (some emg) s = .ok s1 ↔
      (pyStartsWith (N.currentUrl s1)
        ("https://results.hyrox.com/season-" ++ intRepr season) = true ∧
       (n : Int) = season) := by
  unfold navigate_to_results
  rw [if_neg (by omega)]
  simp only [hs1]
  simp only [hw]
  simp only [show ("https://results.hyrox.com" ++ "/season-" : String) =
    "https://results.hyrox.com/season-" from rfl]
  by_cases hpre : pyStartsWith (N.currentUrl s1)
      ("https://results.hyrox.com/season-" ++ intRepr season) = true
  · rw [if_neg (by rw [hpre]; decide)]
    simp only [hp]
    by_cases hnum : (n : Int) = season
    · rw [if_neg (by omega)]
      simp [hpre, hnum]
    · rw [if_pos (by omega)]
      simp [hpre, hnum]
  · rw [if_pos (by simpa using hpre)]
    simp [hpre]

/-- Session for the C4 counterexample: the loaded page echoes the
event group Munich in its URL although Hamburg was requested, while
path and season indicator both match season 7. -/
def mismatchNav : NavSession Nat where
  get := fun _ _ => 1
  waitVisible := fun _ _ => .ok ()
  currentUrl := fun _ =>
    "https://results.hyrox.com/season-7/index.php?event_main_group=Munich&pid=list&pidp=ranking_nav"
  switcherText := fun _ => .ok "Hyrox Season 7"
  switcherLink := fun _ => .ok "https://results.hyrox.com/season-7"

set_option maxRecDepth 8192 in
/-- Claim C4 counterexample: the navigation succeeds although the
event-group query parameter echoed back in the URL is Munich while
Hamburg was requested; the third validation signal the claim
describes is never checked. -/
theorem claim_C4_counterexample :
    navigate_to_results mismatchNav 7 (some "Hamburg") 0 = .ok 1 ∧
    mismatchNav.currentUrl 1 =
      "https://results.hyrox.com/season-7/index.php?event_main_group=Munich&pid=list&pidp=ranking_nav" ∧
    ("Munich" : String) ≠ "Hamburg" :=
  ⟨rfl, rfl, by decide⟩

/-- Claim C4 witness: the amended characterization applied to the
concrete session, with both remaining signals evaluated. -/
theorem claim_C4_witness :
    navigate_to_results mismatchNav 7 (some "Hamburg") 0 = .ok 1 ↔
      (pyStartsWith (mismatchNav.currentUrl 1)
        ("https://results.hyrox.com/season-" ++ intRepr 7) = true ∧
       ((7 : Nat) : Int) = 7) :=
  claim_C4_navigation_checks mismatchNav 7 "Hamburg" 0 1 7 "Hyrox Season 7"
    (by omega) rfl rfl rfl

/-- Model of the Python `str.lower()` call on the ASCII gender labels. -/
def pyLower (s : String) : String :=
  ⟨s.data.map Char.toLower⟩

/-- One record of the flat list produced by `clean_data` in cli.py. -/
structure CatRecord where
  season : Int
  event_id : Option String
  event_main_group : String
  division_name : String
  gender : String
  sex : String
  n_pages : Nat
deriving DecidableEq, Repr

/-- The sex code computed inside `clean_data`: X for a mixed gender
label, otherwise the upper-cased first character; the empty label
raises IndexError on the subscript. -/
def sexOf (g : String) : Except Err String :=
  if pyLower g = "mixed" then .ok "X"
  else
    match g.data with
    | [] => .error ⟨"IndexError", "string index out of range", "traceback"⟩
    | c :: _ => .ok (String.mk [c.toUpper])

/-- Gender-level loop of the `clean_data` comprehension: error gender
records carry no n_pages key, so the `.get` default 0 filters them
out before any field of the record expression is evaluated. -/
def cleanGenders (sn : Int) (eid : Option String) (emg dn : String) :
    List GenderEntry → Except Err (List CatRecord)
  | [] => .ok []
  | GenderEntry.err _ _ :: rest => cleanGenders sn eid emg dn rest
  | GenderEntry.ok _ lbl n :: rest =>
    if 0 < n then
      match sexOf lbl with
      | .error e => .error e
      | .ok sx =>
        match cleanGenders sn eid emg dn rest with
        | .error e => .error e
        | .ok xs => .ok (⟨sn, eid, emg, dn, lbl, sx, n⟩ :: xs)
    else cleanGenders sn eid emg dn rest

/-- Division-level loop of `clean_data`: a division error leaf has no
`genders` key, so iterating it raises KeyError. -/
def cleanDivisions (sn : Int) (emg : String) :
    List DivisionEntry → Except Err (List CatRecord)
  | [] => .ok []
  | DivisionEntry.err _ _ :: _ => .error ⟨"KeyError", "genders", "traceback"⟩
  | DivisionEntry.ok _ dn eid _ _ gs :: rest =>
    match cleanGenders sn eid emg dn gs with
    | .error e => .error e
    | .ok xs =>
      match cleanDivisions sn emg rest with
      | .error e => .error e
      | .ok ys => .ok (xs ++ ys)

/-- Event-level loop of `clean_data`: an event error leaf has no
`divisions` key, so iterating it raises KeyError. -/
def cleanEvents (sn : Int) : List EventEntry → Except Err (List CatRecord)
  | [] => .ok []
  | EventEntry.err _ _ :: _ => .error ⟨"KeyError", "divisions", "traceback"⟩
  | EventEntry.ok _ _ emg divs :: rest =>
    match cleanDivisions sn emg divs with
    | .error e => .error e
    | .ok xs =>
      match cleanEvents sn rest with
      | .error e => .error e
      | .ok ys => .ok (xs ++ ys)

/-- From cli.py `clean_data`: flattens the season catalogs into one
record per gender leaf whose `n_pages` is positive. -/
def clean_data : List SeasonDict → Except Err (List CatRecord)
  | [] => .ok []
  | sd :: rest =>
    match cleanEvents sd.season sd.events with
    | .error e => .error e
    | .ok xs =>
      match clean_data rest with
      | .error e => .error e
      | .ok ys => .ok (xs ++ ys)

/-- Total variant of the sex code used by the specification-side
extraction below; it agrees with `sexOf` whenever the latter succeeds. -/
def spec_harvest_sex (g : String) : String :=
  if pyLower g = "mixed" then "X"
  else
    match g.data with
    | [] => ""
    | c :: _ => String.mk [c.toUpper]

/-- Specification-side extraction, following the spec sentence: every
gender leaf with positive n_pages reached through ordinary event and
division nodes becomes one harvest record; zero-page leaves, error
gender records and error event or division leaves contribute nothing. -/
def spec_harvest_records (seasons : List SeasonDict) : List CatRecord :=
  listFlat (fun sd =>
    listFlat (fun ev =>
      match ev with
      | EventEntry.err _ _ => []
      | EventEntry.ok _ _ emg divs =>
        listFlat (fun d =>
          match d with
          | DivisionEntry.err _ _ => []
          | DivisionEntry.ok _ dn eid _ _ gs =>
            listFlat (fun g =>
              match g with
              | GenderEntry.err _ _ => []
              | GenderEntry.ok _ lbl n =>
                if 0 < n then [⟨sd.season, eid, emg, dn, lbl, spec_harvest_sex lbl, n⟩]
                else []) gs) divs) sd.events) seasons

theorem sexOf_spec (g sx : String) (h : sexOf g = .ok sx) :
    spec_harvest_sex g = sx := by
  rw [sexOf] at h
  rw [spec_harvest_sex]
  by_cases hm : pyLower g = "mixed"
  · rw [if_pos hm] at h
    rw [if_pos hm]
    exact (Except.ok.injEq _ _).mp h
  · rw [if_neg hm] at h
    rw [if_neg hm]
    cases hd : g.data with
    | nil => rw [hd] at h; cases h
    | cons c rest => rw [hd] at h; exact (Except.ok.injEq _ _).mp h

theorem cleanGenders_spec (sn : Int) (eid : Option String) (emg dn : String)
    (gs : List GenderEntry) : ∀ xs, cleanGenders sn eid emg dn gs = .ok xs →
    xs = listFlat (fun g =>
      match g with
      | GenderEntry.err _ _ => []
      | GenderEntry.ok _ lbl n =>
        if 0 < n then [(⟨sn, eid, emg, dn, lbl, spec_harvest_sex lbl, n⟩ : CatRecord)]
        else []) gs ∧ ∀ r ∈ xs, 0 < r.n_pages := by
  induction gs with
  | nil =>
    intro xs h
    cases h
    exact ⟨rfl, by simp⟩
  | cons g rest ih =>
    intro xs h
    cases g with
    | err k e =>
      rw [cleanGenders] at h
      obtain ⟨h1, h2⟩ := ih xs h
      refine ⟨?_, h2⟩
      rw [h1]
      rfl
    | ok k lbl n =>
      rw [cleanGenders] at h
      by_cases hn : 0 < n
      · rw [if_pos hn] at h
        cases hsx : sexOf lbl with
        | error e => rw [hsx] at h; cases h
        | ok sx =>
          rw [hsx] at h
          cases hrest : cleanGenders sn eid emg dn rest with
          | error e => rw [hrest] at h; cases h
          | ok ys =>
            rw [hrest] at h
            obtain ⟨h1, h2⟩ := ih ys hrest
            cases h
            constructor
            · show _ :: ys = listFlat _ (GenderEntry.ok k lbl n :: rest)
              rw [listFlat]
              rw [show (match GenderEntry.ok k lbl n with
                | GenderEntry.err _ _ => ([] : List CatRecord)
                | GenderEntry.ok _ lbl n =>
                  if 0 < n then [⟨sn, eid, emg, dn, lbl, spec_harvest_sex lbl, n⟩]
                  else []) =
                if 0 < n then [(⟨sn, eid, emg, dn, lbl, spec_harvest_sex lbl, n⟩ : CatRecord)]
                else [] from rfl]
              rw [if_pos hn, sexOf_spec lbl sx hsx, h1]
              rfl
            · intro r hr
              rcases List.mem_cons.mp hr with rfl | hr
              · exact hn
              · exact h2 r hr
      · rw [if_neg hn] at h
        obtain ⟨h1, h2⟩ := ih xs h
        refine ⟨?_, h2⟩
        rw [h1, listFlat]
        rw [show (match GenderEntry.ok k lbl n with
          | GenderEntry.err _ _ => ([] : List CatRecord)
          | GenderEntry.ok _ lbl n =>
            if 0 < n then [⟨sn, eid, emg, dn, lbl, spec_harvest_sex lbl, n⟩]
            else []) =
          if 0 < n then [(⟨sn, eid, emg, dn, lbl, spec_harvest_sex lbl, n⟩ : CatRecord)]
          else [] from rfl]
        rw [if_neg hn]
        rfl

theorem cleanDivisions_spec (sn : Int) (emg : String) (ds : List DivisionEntry) :
    ∀ xs, cleanDivisions sn emg ds = .ok xs →
    xs = listFlat (fun d =>
      match d with
      | DivisionEntry.err _ _ => []
      | DivisionEntry.ok _ dn eid _ _ gs =>
        listFlat (fun g =>
          match g with
          | GenderEntry.err _ _ => []
          | GenderEntry.ok _ lbl n =>
            if 0 < n then [(⟨sn, eid, emg, dn, lbl, spec_harvest_sex lbl, n⟩ : CatRecord)]
            else []) gs) ds ∧ ∀ r ∈ xs, 0 < r.n_pages := by
  induction ds with
  | nil =>
    intro xs h
    cases h
    exact ⟨rfl, by simp⟩
  | cons d rest ih =>
    intro xs h
    cases d with
    | err k e => rw [cleanDivisions] at h; cases h
    | ok k dn eid edn ddn gs =>
      rw [cleanDivisions] at h
      cases hg : cleanGenders sn eid emg dn gs with
      | error e => rw [hg] at h; cases h
      | ok as =>
        rw [hg] at h
        cases hrest : cleanDivisions sn emg rest with
        | error e => rw [hrest] at h; cases h
        | ok bs =>
          rw [hrest] at h
          cases h
          obtain ⟨ha1, ha2⟩ := cleanGenders_spec sn eid emg dn gs as hg
          obtain ⟨hb1, hb2⟩ := ih bs hrest
          constructor
          · rw [listFlat, ha1, hb1]
          · intro r hr
            rcases List.mem_append.mp hr with hr | hr
            · exact ha2 r hr
            · exact hb2 r hr

theorem cleanEvents_spec (sn : Int) (evs : List EventEntry) :
    ∀ xs, cleanEvents sn evs = .ok xs →
    xs = listFlat (fun ev =>
      match ev with
      | EventEntry.err _ _ => []
      | EventEntry.ok _ _ emg divs =>
        listFlat (fun d =>
          match d with
          | DivisionEntry.err _ _ => []
          | DivisionEntry.ok _ dn eid _ _ gs =>
            listFlat (fun g =>
              match g with
              | GenderEntry.err _ _ => []
              | GenderEntry.ok _ lbl n =>
                if 0 < n then [(⟨sn, eid, emg, dn, lbl, spec_harvest_sex lbl, n⟩ : CatRecord)]
                else []) gs) divs) evs ∧ ∀ r ∈ xs, 0 < r.n_pages := by
  induction evs with
  | nil =>
    intro xs h
    cases h
    exact ⟨rfl, by simp⟩
  | cons ev rest ih =>
    intro xs h
    cases ev with
    | err k e => rw [cleanEvents] at h; cases h
    | ok i eid emg divs =>
      rw [cleanEvents] at h
      cases hd : cleanDivisions sn emg divs with
      | error e => rw [hd] at h; cases h
      | ok as =>
        rw [hd] at h
        cases hrest : cleanEvents sn rest with
        | error e => rw [hrest] at h; cases h
        | ok bs =>
          rw [hrest] at h
          cases h
          obtain ⟨ha1, ha2⟩ := cleanDivisions_spec sn emg divs as hd
          obtain ⟨hb1, hb2⟩ := ih bs hrest
          constructor
          · rw [listFlat, ha1, hb1]
          · intro r hr
            rcases List.mem_append.mp hr with hr | hr
            · exact ha2 r hr
            · exact hb2 r hr

/-- Claim C9: whenever `clean_data` produces the harvest record list,
that list is exactly the specification-side extraction keeping only
gender leaves with positive page counts: error gender records and
zero-page leaves contribute no work item, and every produced record
has a positive page count. -/
theorem claim_C9_harvest_filter (catalog : List SeasonDict) (recs : List CatRecord)
    (h : clean_data catalog = .ok recs) :
    recs = spec_harvest_records catalog ∧ ∀ r ∈ recs, 0 < r.n_pages := by
  induction catalog generalizing recs with
  | nil =>
    cases h
    exact ⟨rfl, by simp⟩
  | cons sd rest ih =>
    rw [clean_data] at h
    cases he : cleanEvents sd.season sd.events with
    | error e => rw [he] at h; cases h
    | ok as =>
      rw [he] at h
      cases hrest : clean_data rest with
      | error e => rw [hrest] at h; cases h
      | ok bs =>
        rw [hrest] at h
        cases h
        obtain ⟨ha1, ha2⟩ := cleanEvents_spec sd.season sd.events as he
        obtain ⟨hb1, hb2⟩ := ih bs hrest
        constructor
        · rw [spec_harvest_records, listFlat, ha1, hb1]
          rfl
        · intro r hr
          rcases List.mem_append.mp hr with hr | hr
          · exact ha2 r hr
          · exact hb2 r hr

/-- Concrete catalog for the C9 witness: one division carrying a
zero-page gender, an error gender record, and a two-page gender. -/
def c9Catalog : List SeasonDict :=
  [⟨5, "Season 5",
    [EventEntry.ok 0 (some "E9") "Lyon"
      [DivisionEntry.ok 0 "Open" (some "E9") "Ev" "Dv"
        [GenderEntry.ok 0 "Male" 0,
         GenderEntry.err 1 staleE,
         GenderEntry.ok 2 "Female" 2]]]⟩]

/-- Claim C9 witness: the harvest filter theorem applied to the
concrete catalog; only the two-page Female leaf survives. -/
theorem claim_C9_witness :
    clean_data c9Catalog =
      .ok [⟨5, some "E9", "Lyon", "Open", "Female", "F", 2⟩] ∧
    ([(⟨5, some "E9", "Lyon", "Open", "Female", "F", 2⟩ : CatRecord)] =
      spec_harvest_records c9Catalog ∧
     ∀ r ∈ [(⟨5, some "E9", "Lyon", "Open", "Female", "F", 2⟩ : CatRecord)],
       0 < r.n_pages) :=
  ⟨rfl, claim_C9_harvest_filter c9Catalog _ rfl⟩

/-- Python `str(None)` for a missing event id inside a path segment. -/
def optStr : Option String → String
  | none => "None"
  | some s => s

/-- From cli.py `form_file_path`: the relative output directory
`season=S/event=E/sex=X` for one record. -/
def form_file_path (season : Int) (event : Option String) (sex : String) : String :=
  "season=" ++ intRepr season ++ "/event=" ++ optStr event ++ "/sex=" ++ sex

/-- One record of the reformatted list in `scrape_leaderboards_command`:
`event_id` renamed to `event`, plus the computed relative file path.
The recomputed sex code is evaluated (it can raise) but the original
record fields win in the final dict merge. -/
structure HRecord where
  season : Int
  event : Option String
  event_main_group : String
  division_name : String
  gender : String
  sex : String
  n_pages : Nat
  file_path : String
deriving DecidableEq, Repr

/-- The reformatting comprehension of `scrape_leaderboards_command`
(cli.py lines 105 to 113) applied to one `clean_data` record. -/
def reformat (r : CatRecord) : Except Err HRecord :=
  match sexOf r.gender with
  | .error e => .error e
  | .ok _ =>
    .ok ⟨r.season, r.event_id, r.event_main_group, r.division_name, r.gender,
      r.sex, r.n_pages, form_file_path r.season r.event_id r.sex⟩

/-- The reformatting comprehension over the whole record list. -/
def reformatAll : List CatRecord → Except Err (List HRecord)
  | [] => .ok []
  | r :: rest =>
    match reformat r with
    | .error e => .error e
    | .ok x =>
      match reformatAll rest with
      | .error e => .error e
      | .ok xs => .ok (x :: xs)

/-- Output path of one leaderboard page document:
`out_dir/season=S/event=E/sex=X/page=P.json`. -/
def mkPagePath (outDir : String) (r : HRecord) (p : Nat) : String :=
  outDir ++ "/" ++ r.file_path ++ "/page=" ++ decRepr p ++ ".json"

/-- Page loop of `scrape_leaderboards_command` (cli.py lines 135 to
151) for one record: a page whose output path already exists is
skipped unless overwrite is set; otherwise the page is fetched (one
work item) and its document written, growing the path set. -/
def pageLoop (outDir : String) (overwrite : Bool) (r : HRecord) :
    List Nat → List String → List String × List (HRecord × Nat)
  | [], fs => (fs, [])
  | p :: rest, fs =>
    if fs.contains (mkPagePath outDir r p) && !overwrite then
      pageLoop outDir overwrite r rest fs
    else
      let r2 := pageLoop outDir overwrite r rest (mkPagePath outDir r p :: fs)
      (r2.1, (r, p) :: r2.2)

/-- Record loop of `scrape_leaderboards_command` (lines 132 to 152):
each record expands into pages 1 to n_pages. -/
def recordLoop (outDir : String) (overwrite : Bool) :
    List HRecord → List String → List String × List (HRecord × Nat)
  | [], fs => (fs, [])
  | r :: rest, fs =>
    let a := pageLoop outDir overwrite r (List.range' 1 r.n_pages) fs
    let b := recordLoop outDir overwrite rest a.1
    (b.1, a.2 ++ b.2)

/-- From cli.py `scrape_leaderboards_command`: clean the catalogs,
reformat the records, drop records whose bare relative path is in the
existing snapshot (unless overwrite), then run the page loops against
the same path-set snapshot; returns the grown path set and the fetch
work items actually performed. -/
def scrape_leaderboards_run (catalog : List SeasonDict) (outDir : String)
    (fs : List String) (overwrite : Bool) :
    Except Err (List String × List (HRecord × Nat)) :=
  match clean_data catalog with
  | .error e => .error e
  | .ok recs =>
    match reformatAll recs with
    | .error e => .error e
    | .ok recs2 =>
      let recs3 := if overwrite then recs2
        else recs2.filter (fun r => !(fs.contains r.file_path))
      .ok (recordLoop outDir overwrite recs3 fs)

theorem pageLoop_mono (outDir : String) (ow : Bool) (r : HRecord) (ps : List Nat) :
    ∀ fs x, x ∈ fs → x ∈ (pageLoop outDir ow r ps fs).1 := by
  induction ps with
  | nil => intro fs x hx; exact hx
  | cons p rest ih =>
    intro fs x hx
    rw [pageLoop]
    by_cases hc : (fs.contains (mkPagePath outDir r p) && !ow) = true
    · rw [if_pos hc]
      exact ih fs x hx
    · rw [if_neg hc]
      exact ih (mkPagePath outDir r p :: fs) x (List.mem_cons_of_mem _ hx)

theorem pageLoop_covers (outDir : String) (ow : Bool) (r : HRecord) (ps : List Nat) :
    ∀ fs p, p ∈ ps → mkPagePath outDir r p ∈ (pageLoop outDir ow r ps fs).1 := by
  induction ps with
  | nil => intro fs p hp; cases hp
  | cons q rest ih =>
    intro fs p hp
    rw [pageLoop]
    rcases List.mem_cons.mp hp with rfl | hp
    · by_cases hc : (fs.contains (mkPagePath outDir r p) && !ow) = true
      · rw [if_pos hc]
        have hmem : mkPagePath outDir r p ∈ fs := by
          have := (Bool.and_eq_true _ _).mp hc
          simpa using this.1
        exact pageLoop_mono outDir ow r rest fs _ hmem
      · rw [if_neg hc]
        exact pageLoop_mono outDir ow r rest _ _ (by simp)
    · by_cases hc : (fs.contains (mkPagePath outDir r q) && !ow) = true
      · rw [if_pos hc]
        exact ih fs p hp
      · rw [if_neg hc]
        exact ih _ p hp

theorem pageLoop_skip_all (outDir : String) (r : HRecord) (ps : List Nat) :
    ∀ fs, (∀ p ∈ ps, mkPagePath outDir r p ∈ fs) →
    pageLoop outDir false r ps fs = (fs, []) := by
  induction ps with
  | nil => intro fs _; rfl
  | cons p rest ih =>
    intro fs h
    rw [pageLoop, if_pos (by simp [h p (by simp)])]
    exact ih fs (fun q hq => h q (by simp [hq]))

theorem recordLoop_mono (outDir : String) (ow : Bool) (rs : List HRecord) :
    ∀ fs x, x ∈ fs → x ∈ (recordLoop outDir ow rs fs).1 := by
  induction rs with
  | nil => intro fs x hx; exact hx
  | cons r rest ih =>
    intro fs x hx
    rw [recordLoop]
    exact ih _ x (pageLoop_mono outDir ow r (List.range' 1 r.n_pages) fs x hx)

theorem recordLoop_covers (outDir : String) (ow : Bool) (rs : List HRecord) :
    ∀ fs r p, r ∈ rs → p ∈ List.range' 1 r.n_pages →
    mkPagePath outDir r p ∈ (recordLoop outDir ow rs fs).1 := by
  induction rs with
  | nil => intro fs r p hr _; cases hr
  | cons q rest ih =>
    intro fs r p hr hp
    rw [recordLoop]
    rcases List.mem_cons.mp hr with rfl | hr
    · exact recordLoop_mono outDir ow rest _ _
        (pageLoop_covers outDir ow r (List.range' 1 r.n_pages) fs p hp)
    · exact ih _ r p hr hp

theorem recordLoop_skip_all (outDir : String) (rs : List HRecord) :
    ∀ fs, (∀ r ∈ rs, ∀ p ∈ List.range' 1 r.n_pages, mkPagePath outDir r p ∈ fs) →
    recordLoop outDir false rs fs = (fs, []) := by
  induction rs with
  | nil => intro fs _; rfl
  | cons r rest ih =>
    intro fs h
    rw [recordLoop]
    have hp : pageLoop outDir false r (List.range' 1 r.n_pages) fs = (fs, []) :=
      pageLoop_skip_all outDir r _ fs (fun p hp => h r (by simp) p hp)
    rw [hp]
    have hr : recordLoop outDir false rest fs = (fs, []) :=
      ih fs (fun q hq p hpq => h q (by simp [hq]) p hpq)
    rw [hr]
    rfl

/-- Claim C6: with overwrite off, a run of the leaderboard planner
records in the path set every output it produces, so a second run
against the same catalog and the grown (non-empty) path set drops
every record or page as already existing and performs no fetch: its
work list is empty. -/
theorem claim_C6_resume_idempotent (catalog : List SeasonDict) (outDir : String)
    (fs fs1 : List String) (items1 : List (HRecord × Nat))
    (hfs : fs ≠ [])
    (h1 : scrape_leaderboards_run catalog outDir fs false = .ok (fs1, items1)) :
    scrape_leaderboards_run catalog outDir fs1 false = .ok (fs1, []) := by
  have hclean : ∃ recs, clean_data catalog = .ok recs := by
    cases hcc : clean_data catalog with
    | error e =>
      rw [scrape_leaderboards_run, hcc] at h1
      cases h1
    | ok recs => exact ⟨recs, rfl⟩
  obtain ⟨recs, hc⟩ := hclean
  have href : ∃ recs2, reformatAll recs = .ok recs2 := by
    cases hrr : reformatAll recs with
    | error e =>
      rw [scrape_leaderboards_run, hc] at h1
      simp only [hrr] at h1
      cases h1
    | ok recs2 => exact ⟨recs2, rfl⟩
  obtain ⟨recs2, hr⟩ := href
  rw [scrape_leaderboards_run, hc] at h1
  simp only [hr] at h1
  rw [scrape_leaderboards_run, hc]
  simp only [hr]
  have h1' : Except.ok (ε := Err) (recordLoop outDir false
      (recs2.filter (fun r => !(fs.contains r.file_path))) fs) =
      Except.ok (fs1, items1) := h1
  have heq : recordLoop outDir false
      (recs2.filter (fun r => !(fs.contains r.file_path))) fs = (fs1, items1) :=
    (Except.ok.injEq _ _).mp h1'
  have hsub : ∀ x ∈ fs, x ∈ fs1 := by
    intro x hx
    have hm := recordLoop_mono outDir false
      (recs2.filter (fun r => !(fs.contains r.file_path))) fs x hx
    rw [heq] at hm
    exact hm
  have hcov : ∀ r ∈ recs2.filter (fun r => !(fs.contains r.file_path)),
      ∀ p ∈ List.range' 1 r.n_pages, mkPagePath outDir r p ∈ fs1 := by
    intro r hrm p hp
    have hm := recordLoop_covers outDir false
      (recs2.filter (fun r => !(fs.contains r.file_path))) fs r p hrm hp
    rw [heq] at hm
    exact hm
  have hBA : ∀ r ∈ recs2.filter (fun r => !(fs1.contains r.file_path)),
      r ∈ recs2.filter (fun r => !(fs.contains r.file_path)) := by
    intro r hrm
    obtain ⟨hr2, hflt⟩ := List.mem_filter.mp hrm
    have hn1 : r.file_path ∉ fs1 := by simpa using hflt
    have hn : r.file_path ∉ fs := fun hmem => hn1 (hsub _ hmem)
    exact List.mem_filter.mpr ⟨hr2, by simpa using hn⟩
  show Except.ok (recordLoop outDir false
    (recs2.filter (fun r => !(fs1.contains r.file_path))) fs1) = _
  rw [recordLoop_skip_all outDir _ fs1
    (fun r hrm p hp => hcov r (hBA r hrm) p hp)]

/-- Concrete catalog for the C6 witness: one event group, one
division, one gender split with two leaderboard pages. -/
def c6Catalog : List SeasonDict :=
  [⟨1, "Season 1",
    [EventEntry.ok 0 (some "E1") "G"
      [DivisionEntry.ok 0 "D" (some "E1") "Ev" "Dv"
        [GenderEntry.ok 0 "Male" 2]]]⟩]

/-- Claim C6 witness: the idempotence theorem applied to the concrete
catalog; the first run fetches pages 1 and 2 and grows the path set,
the second run performs nothing. -/
theorem claim_C6_witness :
    scrape_leaderboards_run c6Catalog "out"
      ["out/season=1/event=E1/sex=M/page=2.json",
       "out/season=1/event=E1/sex=M/page=1.json", "seed"] false =
    .ok (["out/season=1/event=E1/sex=M/page=2.json",
          "out/season=1/event=E1/sex=M/page=1.json", "seed"], []) :=
  claim_C6_resume_idempotent c6Catalog "out" ["seed"]
    ["out/season=1/event=E1/sex=M/page=2.json",
     "out/season=1/event=E1/sex=M/page=1.json", "seed"]
    [(⟨1, some "E1", "G", "D", "Male", "M", 2, "season=1/event=E1/sex=M"⟩, 1),
     (⟨1, some "E1", "G", "D", "Male", "M", 2, "season=1/event=E1/sex=M"⟩, 2)]
    (by simp) rfl
